import Mathlib

/-!
Verification of the numerical core of the Spectrum_Analyzer repository.

The Python source (NumPy/SciPy) is shallowly embedded over exact rationals:
each float array becomes a `List ℚ`, NaN-producing float operations become
`Option`-valued, and the few quantities whose float value involves a square
root (`np.std`) are either carried as their exact square or modelled over `ℝ`.
SciPy routines whose value no claim constrains (``scipy.integrate.simpson``,
``scipy.signal.savgol_filter``, ``find_peaks``/``peak_widths``) are taken as
function parameters, so every theorem holds for all of their behaviours.
-/

namespace SpectrumAnalyzer

/-! ## List statistics shared by the embedded routines

`np.median`, `np.percentile`, `np.mean`, `np.std` (as variance), `np.argmin`
over lists. Sorting is by insertion sort, which keeps the proofs elementary.
-/

/-- Insert a value into a list so that a sorted list stays sorted. -/
def insertSorted {α : Type} [LinearOrder α] (x : α) : List α → List α
  | [] => [x]
  | y :: ys => if x ≤ y then x :: y :: ys else y :: insertSorted x ys

/-- Insertion sort, ascending. -/
def isort {α : Type} [LinearOrder α] : List α → List α
  | [] => []
  | x :: xs => insertSorted x (isort xs)

theorem length_insertSorted {α : Type} [LinearOrder α] (x : α) (l : List α) :
    (insertSorted x l).length = l.length + 1 := by
  induction l with
  | nil => rfl
  | cons y ys ih =>
    by_cases h : x ≤ y
    · simp [insertSorted, h]
    · simp [insertSorted, h, ih]

theorem length_isort {α : Type} [LinearOrder α] (l : List α) :
    (isort l).length = l.length := by
  induction l with
  | nil => rfl
  | cons x xs ih => simp [isort, length_insertSorted, ih]

theorem mem_insertSorted {α : Type} [LinearOrder α] {a x : α} {l : List α} :
    a ∈ insertSorted x l ↔ a = x ∨ a ∈ l := by
  induction l with
  | nil => simp [insertSorted]
  | cons y ys ih =>
    by_cases h : x ≤ y
    · simp [insertSorted, h]
    · simp [insertSorted, h, ih]; tauto

theorem mem_isort {α : Type} [LinearOrder α] {a : α} {l : List α} :
    a ∈ isort l ↔ a ∈ l := by
  induction l with
  | nil => simp [isort]
  | cons x xs ih => simp [isort, mem_insertSorted, ih]

/-- Arithmetic mean, `np.mean` (0 on the empty list, where NumPy warns). -/
def listMean {α : Type} [LinearOrderedField α] (xs : List α) : α :=
  xs.sum / xs.length

/-- Population variance, `np.var` — the square of `np.std` (`ddof = 0`). -/
def listVar {α : Type} [LinearOrderedField α] (xs : List α) : α :=
  (xs.map (fun x => (x - listMean xs) ^ 2)).sum / xs.length

/-- `np.median`: middle of the sorted data, or the mean of the two middles. -/
def npMedian {α : Type} [LinearOrderedField α] (xs : List α) : α :=
  let s := isort xs
  let n := s.length
  if n = 0 then 0
  else if n % 2 = 1 then s.getD (n / 2) 0
  else (s.getD (n / 2 - 1) 0 + s.getD (n / 2) 0) / 2

/-- `np.percentile` with the default linear interpolation between order
statistics; on finite data `np.nanpercentile` does the same. -/
def npPercentile (xs : List ℚ) (q : ℚ) : ℚ :=
  let s := isort xs
  let n := s.length
  if n = 0 then 0
  else
    let rank : ℚ := q * (n - 1) / 100
    let k : ℕ := (Int.floor rank).toNat
    let d : ℚ := rank - k
    if k + 1 < n then s.getD k 0 + d * (s.getD (k + 1) 0 - s.getD k 0)
    else s.getD (n - 1) 0

/-- `np.argmin`: index of the first occurrence of the minimum. -/
def argminIdx : List ℚ → ℕ
  | [] => 0
  | x :: xs =>
    if xs = [] then 0
    else
      let j := argminIdx xs
      if xs.getD j 0 < x then j + 1 else 0

theorem argminIdx_cons (x : ℚ) {ys : List ℚ} (hys : ys ≠ []) :
    argminIdx (x :: ys) =
      if ys.getD (argminIdx ys) 0 < x then argminIdx ys + 1 else 0 := by
  simp [argminIdx, hys]

theorem argminIdx_lt_length {xs : List ℚ} (h : xs ≠ []) :
    argminIdx xs < xs.length := by
  induction xs with
  | nil => exact absurd rfl h
  | cons x ys ih =>
    by_cases hy : ys = []
    · subst hy; simp [argminIdx]
    · rw [argminIdx_cons x hy]
      have := ih hy
      by_cases hlt : ys.getD (argminIdx ys) 0 < x
      · rw [if_pos hlt]; simpa using this
      · rw [if_neg hlt]; simp

theorem getD_argminIdx_le {xs : List ℚ} :
    ∀ y ∈ xs, xs.getD (argminIdx xs) 0 ≤ y := by
  induction xs with
  | nil => intro y hy; cases hy
  | cons x ys ih =>
    intro y hy
    by_cases hys : ys = []
    · subst hys
      rcases List.mem_cons.mp hy with hy | hy
      · subst hy; simp [argminIdx]
      · cases hy
    · rw [argminIdx_cons x hys]
      by_cases hlt : ys.getD (argminIdx ys) 0 < x
      · rw [if_pos hlt, List.getD_cons_succ]
        rcases List.mem_cons.mp hy with hy | hy
        · subst hy; exact le_of_lt hlt
        · exact ih y hy
      · rw [if_neg hlt, List.getD_cons_zero]
        have hx : x ≤ ys.getD (argminIdx ys) 0 := le_of_not_lt hlt
        rcases List.mem_cons.mp hy with hy | hy
        · subst hy; exact le_refl y
        · exact le_trans hx (ih y hy)

theorem getD_mem_of_lt {α : Type} {l : List α} {i : ℕ} (d : α)
    (h : i < l.length) : l.getD i d ∈ l := by
  rw [List.getD_eq_getElem l d h]
  exact List.getElem_mem h

/-- Every lower bound of a non-empty list bounds its `np.median` below. -/
theorem le_npMedian_of_forall_le {c : ℚ} {xs : List ℚ}
    (hne : xs ≠ []) (h : ∀ y ∈ xs, c ≤ y) : c ≤ npMedian xs := by
  have hlen : (isort xs).length = xs.length := length_isort xs
  have hpos : 0 < xs.length := List.length_pos.mpr hne
  have hmem : ∀ y ∈ isort xs, c ≤ y := fun y hy => h y (mem_isort.mp hy)
  unfold npMedian
  simp only [hlen]
  rw [if_neg (by omega)]
  by_cases hodd : xs.length % 2 = 1
  · rw [if_pos hodd]
    exact hmem _ (getD_mem_of_lt 0 (by omega))
  · rw [if_neg hodd]
    have h1 : c ≤ (isort xs).getD (xs.length / 2 - 1) 0 :=
      hmem _ (getD_mem_of_lt 0 (by omega))
    have h2 : c ≤ (isort xs).getD (xs.length / 2) 0 :=
      hmem _ (getD_mem_of_lt 0 (by omega))
    linarith

theorem getD_map_range {α : Type} (n : ℕ) (g : ℕ → α) (d : α) {i : ℕ}
    (h : i < n) : ((List.range n).map g).getD i d = g i := by
  rw [List.getD_eq_getElem _ _ (by simpa using h)]
  simp

theorem getD_map_lt {α β : Type} (g : α → β) (l : List α) (d : β) (e : α)
    {i : ℕ} (h : i < l.length) : (l.map g).getD i d = g (l.getD i e) := by
  rw [List.getD_eq_getElem _ _ (by simpa using h), List.getD_eq_getElem _ _ h]
  simp

theorem length_take_drop {α : Type} (xs : List α) (s k : ℕ)
    (h : s + k ≤ xs.length) : ((xs.drop s).take k).length = k := by
  simp only [List.length_take, List.length_drop]
  omega

theorem sum_take_drop (xs : List ℚ) (s k : ℕ) (h : s + k ≤ xs.length) :
    ((xs.drop s).take k).sum = ∑ j ∈ Finset.range k, xs.getD (s + j) 0 := by
  induction k with
  | zero => simp
  | succ k ih =>
    rw [List.take_succ, List.sum_append, ih (by omega), Finset.sum_range_succ]
    have hk : s + k < xs.length := by omega
    have hdrop : (xs.drop s)[k]? = some (xs.getD (s + k) 0) := by
      rw [List.getElem?_drop, List.getD_eq_getElem _ _ hk]
      exact List.getElem?_eq_getElem (by omega)
    simp [hdrop]

/-! ## Rebinner — `fits_processor.rebin_spectrum`

```python
def rebin_spectrum(wl, flux, ivar, factor=2):
    if factor <= 1:
        return wl, flux, ivar
    n = len(wl) // factor
    wl_r = wl[:n*factor].reshape(n, factor).mean(axis=1)
    var = 1.0 / ivar
    var_r = var[:n*factor].reshape(n, factor).mean(axis=1)
    flux_r = flux[:n*factor].reshape(n, factor).mean(axis=1)
    ivar_r = 1.0 / var_r
    return wl_r, flux_r, ivar_r
```
-/

/-- Mean of the `i`-th block of `factor` consecutive samples. -/
def blockMean (xs : List ℚ) (factor i : ℕ) : ℚ :=
  listMean ((xs.drop (i * factor)).take factor)

/-- `rebin_spectrum`. Division is exact rational division; the pipeline only
rebins masked data (`ivar > 0`), where this agrees with the float code. -/
def rebin_spectrum (wl flux ivar : List ℚ) (factor : ℤ) :
    List ℚ × List ℚ × List ℚ :=
  if factor ≤ 1 then (wl, flux, ivar)
  else
    let f := factor.toNat
    let n := wl.length / f
    ((List.range n).map (blockMean wl f),
     (List.range n).map (blockMean flux f),
     (List.range n).map (fun i => (blockMean (ivar.map (fun v => 1 / v)) f i)⁻¹))

theorem blockMean_eq_sum (xs : List ℚ) (f i : ℕ) (h : i * f + f ≤ xs.length) :
    blockMean xs f i = (∑ j ∈ Finset.range f, xs.getD (i * f + j) 0) / f := by
  unfold blockMean listMean
  rw [sum_take_drop xs (i * f) f h, length_take_drop xs (i * f) f h]

/-- C1: with equal-length inputs and strictly positive inverse variance,
`rebin_spectrum` is the identity for `factor ≤ 1`; for `factor ≥ 2` every
output has length `⌊len/factor⌋`, wavelength and flux are block arithmetic
means, and the output inverse variance of each block is
`1 / mean(1/ivar over the block)` — a formula that differs from
`mean(ivar over the block)`, as the final concrete conjunct shows on the
block `[1, 3]` (harmonic-style `3/2` versus arithmetic `2`). -/
theorem rebin_spectrum_spec (wl flux ivar : List ℚ) (factor : ℤ)
    (hlf : flux.length = wl.length) (hli : ivar.length = wl.length)
    (hiv : ∀ v ∈ ivar, 0 < v) :
    (factor ≤ 1 → rebin_spectrum wl flux ivar factor = (wl, flux, ivar)) ∧
    (2 ≤ factor →
      (rebin_spectrum wl flux ivar factor).1.length =
        wl.length / factor.toNat ∧
      (rebin_spectrum wl flux ivar factor).2.1.length =
        wl.length / factor.toNat ∧
      (rebin_spectrum wl flux ivar factor).2.2.length =
        wl.length / factor.toNat ∧
      ∀ i < wl.length / factor.toNat,
        (rebin_spectrum wl flux ivar factor).1.getD i 0 =
          (∑ j ∈ Finset.range factor.toNat,
            wl.getD (i * factor.toNat + j) 0) / factor.toNat ∧
        (rebin_spectrum wl flux ivar factor).2.1.getD i 0 =
          (∑ j ∈ Finset.range factor.toNat,
            flux.getD (i * factor.toNat + j) 0) / factor.toNat ∧
        (rebin_spectrum wl flux ivar factor).2.2.getD i 0 =
          1 / ((∑ j ∈ Finset.range factor.toNat,
            1 / ivar.getD (i * factor.toNat + j) 0) / factor.toNat)) ∧
    (rebin_spectrum [1, 2] [1, 1] [1, 3] 2).2.2 = [3 / 2] ∧
    listMean [(1 : ℚ), 3] = 2 ∧ ((3 : ℚ) / 2) ≠ 2 := by
  refine ⟨fun h => ?_, fun h2 => ?_, ?_, ?_, by norm_num⟩
  · unfold rebin_spectrum
    rw [if_pos h]
  · have hnot : ¬ factor ≤ 1 := by omega
    have hblock : ∀ i < wl.length / factor.toNat,
        i * factor.toNat + factor.toNat ≤ wl.length := by
      intro i hi
      have h1 : i + 1 ≤ wl.length / factor.toNat := hi
      have h2 : (i + 1) * factor.toNat ≤
          (wl.length / factor.toNat) * factor.toNat :=
        Nat.mul_le_mul_right _ h1
      have h3 : (wl.length / factor.toNat) * factor.toNat ≤ wl.length :=
        Nat.div_mul_le_self _ _
      calc i * factor.toNat + factor.toNat = (i + 1) * factor.toNat := by ring
        _ ≤ wl.length := le_trans h2 h3
    unfold rebin_spectrum
    rw [if_neg hnot]
    refine ⟨by simp, by simp, by simp, fun i hi => ?_⟩
    have hb := hblock i hi
    refine ⟨?_, ?_, ?_⟩
    · rw [getD_map_range _ _ _ hi, blockMean_eq_sum _ _ _ hb]
    · rw [getD_map_range _ _ _ hi, blockMean_eq_sum _ _ _ (by omega)]
    · rw [getD_map_range _ _ _ hi,
        blockMean_eq_sum _ _ _ (by simpa using (by omega : i * factor.toNat +
          factor.toNat ≤ ivar.length))]
      rw [inv_eq_one_div]
      congr 1
      congr 1
      refine Finset.sum_congr rfl fun j hj => ?_
      have hjlt : i * factor.toNat + j < ivar.length := by
        have := Finset.mem_range.mp hj
        omega
      exact getD_map_lt _ _ _ 0 hjlt
  · have h2 : (2 : ℤ).toNat = 2 := rfl
    norm_num [rebin_spectrum, blockMean, listMean, h2, List.range_succ,
      List.range_zero]
  · norm_num [listMean]

/-- Witness for C1 at a concrete spectrum. -/
theorem rebin_spectrum_spec_witness :
    (2 : ℤ) ≤ 2 ∧ (rebin_spectrum [1, 2] [1, 1] [1, 3] 2).1.length = 1 := by
  have h := (rebin_spectrum_spec [1, 2] [1, 1] [1, 3] 2 rfl rfl
    (by norm_num)).2.1 (by norm_num)
  exact ⟨by norm_num, h.1⟩

/-! ## Adaptive Smoother — `utils.try_savgol`

```python
def try_savgol(y, window, poly, moving_avg_window=35):
    try:
        from scipy.signal import savgol_filter
        window = max(3, int(window) | 1)
        if window > len(y):
            window = len(y) - 1 if len(y) % 2 == 0 else len(y)
            window = max(3, window)
        if window < poly + 2:
            window = poly + 3
        return savgol_filter(y, window_length=window, polyorder=poly, mode="interp")
    except Exception as e:
        w = max(3, int(moving_avg_window))
        if w % 2 == 0:
            w += 1
        if w > len(y):
            w = len(y) - 1 if len(y) % 2 == 0 else len(y)
            w = max(3, w)
        k = np.ones(w) / w
        if len(y) < w:
            y_pad = np.pad(y, (w//2, w//2), mode='constant', constant_values=np.median(y))
        else:
            y_pad = np.pad(y, (w//2, w//2), mode='edge')
        return np.convolve(y_pad, k, mode="valid")
```

`savgol_filter` itself (a SciPy least-squares filter that may raise) is a
parameter `sgPrimary`; returning `none` models the raised exception that
selects the fallback branch.
-/

/-- `np.convolve(y_pad, ones(w)/w, mode="valid")`: each output sample is the
mean of `w` consecutive padded samples. -/
def convolveUniformValid (ypad : List ℚ) (w : ℕ) : List ℚ :=
  (List.range (ypad.length + 1 - w)).map
    (fun i => ((ypad.drop i).take w).sum / w)

/-- The fallback's adjusted window: `max(3, int(maw))`, forced odd, shrunk to
the data length (largest odd value that fits, but at least 3). -/
def fallbackWindow (y : List ℚ) (moving_avg_window : ℤ) : ℕ :=
  let w1 : ℕ := (max 3 moving_avg_window).toNat
  let w2 : ℕ := if w1 % 2 = 0 then w1 + 1 else w1
  if w2 > y.length then
    max 3 (if y.length % 2 = 0 then y.length - 1 else y.length)
  else w2

/-- The `except` branch of `try_savgol`: the padded moving average
(edge-replication padding, or constant global-median padding when the data
is shorter than the adjusted window). -/
def moving_average_fallback (y : List ℚ) (moving_avg_window : ℤ) : List ℚ :=
  let w : ℕ := fallbackWindow y moving_avg_window
  let ypad : List ℚ :=
    if y.length < w then
      List.replicate (w / 2) (npMedian y) ++ y ++
        List.replicate (w / 2) (npMedian y)
    else
      List.replicate (w / 2) (y.headD 0) ++ y ++
        List.replicate (w / 2) (y.getLastD 0)
  convolveUniformValid ypad w

/-- `try_savgol`: attempt the (parametrised) Savitzky–Golay filter after the
window corrections; on failure (`none`) use the moving-average fallback. -/
def try_savgol (y : List ℚ) (window : ℤ) (poly : ℕ) (moving_avg_window : ℤ)
    (sgPrimary : List ℚ → ℕ → ℕ → Option (List ℚ)) : List ℚ :=
  let w1 : ℕ := (max 3 (window.lor 1)).toNat
  let w2 : ℕ :=
    if w1 > y.length then
      max 3 (if y.length % 2 = 0 then y.length - 1 else y.length)
    else w1
  let w3 : ℕ := if w2 < poly + 2 then poly + 3 else w2
  match sgPrimary y w3 poly with
  | some r => r
  | none => moving_average_fallback y moving_avg_window

theorem length_convolve_pad (a b : ℚ) (y : List ℚ) (w : ℕ) (hw : w % 2 = 1) :
    (convolveUniformValid
      (List.replicate (w / 2) a ++ y ++ List.replicate (w / 2) b) w).length =
      y.length := by
  unfold convolveUniformValid
  simp only [List.length_map, List.length_range, List.length_append,
    List.length_replicate]
  omega

theorem fallbackWindow_odd (y : List ℚ) (maw : ℤ) (h : y ≠ []) :
    (fallbackWindow y maw) % 2 = 1 := by
  have hlen : 1 ≤ y.length := List.length_pos.mpr h
  unfold fallbackWindow
  simp only
  split_ifs <;> omega

theorem moving_average_fallback_length (y : List ℚ) (maw : ℤ) (h : y ≠ []) :
    (moving_average_fallback y maw).length = y.length := by
  have hodd := fallbackWindow_odd y maw h
  unfold moving_average_fallback
  simp only
  split
  · exact length_convolve_pad _ _ y _ hodd
  · exact length_convolve_pad _ _ y _ hodd

/-- C3: the Adaptive Smoother's moving-average fallback branch (reached here
by a primary filter that always fails) succeeds on every non-empty input and
returns an array of exactly the input's length, for any requested window,
polynomial order and fallback moving-average window. -/
theorem smoother_fallback_spec (y : List ℚ) (window : ℤ) (poly : ℕ)
    (moving_avg_window : ℤ) (h : y ≠ []) :
    (try_savgol y window poly moving_avg_window
      (fun _ _ _ => none)).length = y.length := by
  unfold try_savgol
  exact moving_average_fallback_length y moving_avg_window h

/-- Witness for C3 on a one-sample array with an oversized window. -/
theorem smoother_fallback_spec_witness :
    ([(7 : ℚ)] : List ℚ) ≠ [] ∧
    (try_savgol [(7 : ℚ)] 61 2 35 (fun _ _ _ => none)).length = 1 :=
  ⟨by simp, smoother_fallback_spec [(7 : ℚ)] 61 2 35 (by simp)⟩

/-! ## Continuum Estimator — `utils.running_percentile`

```python
def running_percentile(y, win=301, q=90):
    win = max(51, int(win) | 1)
    if win >= len(y):
        return np.full_like(y, np.nanmedian(y))
    half = win // 2
    cont = np.empty_like(y)
    for i in range(len(y)):
        a = max(0, i - half)
        b = min(len(y), i + half + 1)
        cont[i] = np.nanpercentile(y[a:b], q)
    return cont
```

Data is finite here, so `np.nanmedian`/`np.nanpercentile` coincide with
`np.median`/`np.percentile`. Natural subtraction models `max(0, i - half)`.
-/

def running_percentile (y : List ℚ) (win : ℕ) (q : ℚ) : List ℚ :=
  let w : ℕ := max 51 (win.lor 1)
  if w ≥ y.length then List.replicate y.length (npMedian y)
  else
    let half := w / 2
    (List.range y.length).map (fun i =>
      npPercentile ((y.drop (i - half)).take
        (min y.length (i + half + 1) - (i - half))) q)

/-- C7: after forcing the window odd and at least 51, `running_percentile`
returns, when the window covers the whole array, a same-length array that is
everywhere the global median; otherwise, at each index, the `q`-th percentile
of the window `[i - win//2, i + win//2]` clamped to the array bounds. -/
theorem running_percentile_spec (y : List ℚ) (win : ℕ) (q : ℚ) :
    (max 51 (win.lor 1) ≥ y.length →
      (running_percentile y win q).length = y.length ∧
      ∀ i < y.length, (running_percentile y win q).getD i 0 = npMedian y) ∧
    (max 51 (win.lor 1) < y.length →
      (running_percentile y win q).length = y.length ∧
      ∀ i < y.length, (running_percentile y win q).getD i 0 =
        npPercentile ((y.drop (i - max 51 (win.lor 1) / 2)).take
          (min y.length (i + max 51 (win.lor 1) / 2 + 1) -
            (i - max 51 (win.lor 1) / 2))) q) := by
  constructor
  · intro h
    unfold running_percentile
    rw [if_pos h]
    refine ⟨by simp, fun i hi => ?_⟩
    rw [List.getD_eq_getElem _ _ (by simpa using hi)]
    simp
  · intro h
    unfold running_percentile
    rw [if_neg (by omega)]
    refine ⟨by simp, fun i hi => ?_⟩
    exact getD_map_range _ _ _ hi

/-- Witness for C7: a three-sample array is shorter than the minimum window
51, so the continuum collapses to the global median at every index. -/
theorem running_percentile_spec_witness :
    max 51 ((3 : ℕ).lor 1) ≥ ([(1 : ℚ), 5, 2] : List ℚ).length ∧
    (0 : ℕ) < 3 ∧
    (running_percentile [(1 : ℚ), 5, 2] 3 90).getD 0 0 =
      npMedian [(1 : ℚ), 5, 2] :=
  ⟨by norm_num, by norm_num,
    ((running_percentile_spec [(1 : ℚ), 5, 2] 3 90).1 (by norm_num)).2 0
      (by norm_num)⟩

/-! ## Line Enhancer — `utils.enhance_line_detection`

```python
def enhance_line_detection(flux, enhancement_factor=1.5):
    norm_flux = (flux - np.min(flux)) / (np.max(flux) - np.min(flux))
    enhanced_flux = np.power(norm_flux, enhancement_factor)
    return enhanced_flux * (np.max(flux) - np.min(flux)) + np.min(flux)
```

Float semantics matter here: when `max == min` every element of `norm_flux`
is `0/0 = NaN`, and NaN propagates through `power`, `*` and `+`. A
non-finite float is modelled as `none`; `np.power` restricted to finite
arguments (the normalized values lie in `[0, 1]`, so no further NaN can
arise from it) is an arbitrary parameter `powF`.
-/

/-- A float that is either finite (a rational) or non-finite (NaN). -/
abbrev EFloat := Option ℚ

/-- `np.min` over a non-empty list (0 on `[]`, where NumPy raises). -/
def listMin : List ℚ → ℚ
  | [] => 0
  | x :: xs => xs.foldl min x

/-- `np.max` over a non-empty list (0 on `[]`, where NumPy raises). -/
def listMax : List ℚ → ℚ
  | [] => 0
  | x :: xs => xs.foldl max x

/-- `enhance_line_detection` with exact NaN propagation: the normalization
divides by `max - min`, and a zero denominator makes the element `NaN`. -/
def enhance_line_detection (flux : List ℚ) (enhancement_factor : ℚ)
    (powF : ℚ → ℚ → ℚ) : List EFloat :=
  let mn := listMin flux
  let mx := listMax flux
  flux.map (fun f =>
    if mx - mn = 0 then none
    else some (powF ((f - mn) / (mx - mn)) enhancement_factor * (mx - mn) + mn))

/-- C4 is a code bug: for a constant flux array the normalization denominator
`max - min` is zero and is not guarded, so every output element is NaN — the
code does not return the input unchanged, for any `enhancement_factor > 0`
and any behaviour of `np.power` on finite arguments. -/
theorem enhance_line_detection_const_nan (enhancement_factor : ℚ)
    (powF : ℚ → ℚ → ℚ) (hpos : 0 < enhancement_factor) :
    enhance_line_detection [5, 5, 5] enhancement_factor powF =
      [none, none, none] ∧
    ([none, none, none] : List EFloat) ≠ [(5 : ℚ), 5, 5].map some := by
  constructor
  · unfold enhance_line_detection
    norm_num [listMin, listMax]
  · simp

/-- Witness for C4's failing input at `enhancement_factor = 1.5`. -/
theorem enhance_line_detection_const_nan_witness :
    (0 : ℚ) < 3 / 2 ∧
    enhance_line_detection [5, 5, 5] (3 / 2) (fun b _ => b) =
      [none, none, none] :=
  ⟨by norm_num,
    (enhance_line_detection_const_nan (3 / 2) (fun b _ => b) (by norm_num)).1⟩

/-! ## Line Measurement Engine — `spectral_analysis.measure_line_parameters`

```python
def measure_line_parameters(wavelengths, flux, line_center, window=10):
    mask = (wavelengths >= line_center - window) & (wavelengths <= line_center + window)
    wl_window = wavelengths[mask]
    flux_window = flux[mask]
    if len(flux_window) == 0:
        return None
    min_flux_idx = np.argmin(flux_window)
    observed_center = wl_window[min_flux_idx]
    min_flux = flux_window[min_flux_idx]
    continuum_left = np.median(flux_window[:5])
    continuum_right = np.median(flux_window[-5:])
    continuum = (continuum_left + continuum_right) / 2
    equivalent_width = simpson(1 - flux_window/continuum, wl_window)
    half_max = (continuum + min_flux) / 2
    left_idx = np.where(flux_window[:min_flux_idx] <= half_max)[0]
    right_idx = np.where(flux_window[min_flux_idx:] <= half_max)[0]
    if len(left_idx) > 0 and len(right_idx) > 0:
        left_wl = wl_window[left_idx[-1]]
        right_wl = wl_window[min_flux_idx + right_idx[0]]
        fwhm = right_wl - left_wl
    else:
        fwhm = np.nan
    depth = 1 - (min_flux / continuum)
    return {...}
```

`scipy.integrate.simpson` is the parameter `integ`, since no claim
constrains the equivalent width's value. The NaN `fwhm` is `none`.
-/

structure LineMeasurement where
  observed_center : ℚ
  equivalent_width : ℚ
  fwhm : Option ℚ
  depth : ℚ
  continuum_level : ℚ
  redshift : Option ℚ
deriving DecidableEq

/-- The samples selected by the `line_center ± window` mask, as
(wavelength, flux) pairs. -/
def lineWindow (wavelengths flux : List ℚ) (line_center window : ℚ) :
    List (ℚ × ℚ) :=
  (wavelengths.zip flux).filter (fun p =>
    decide (line_center - window ≤ p.1) && decide (p.1 ≤ line_center + window))

/-- `flux_window`. -/
def windowFlux (wavelengths flux : List ℚ) (line_center window : ℚ) : List ℚ :=
  (lineWindow wavelengths flux line_center window).map Prod.snd

/-- `wl_window`. -/
def windowWl (wavelengths flux : List ℚ) (line_center window : ℚ) : List ℚ :=
  (lineWindow wavelengths flux line_center window).map Prod.fst

/-- The local continuum of a flux window: mean of the median of the first 5
and the median of the last 5 samples. -/
def localContinuum (fw : List ℚ) : ℚ :=
  (npMedian (fw.take 5) + npMedian (fw.drop (fw.length - 5))) / 2

/-- The half-maximum level: midpoint between the local continuum and the
minimum flux of the window. -/
def halfMaxLevel (fw : List ℚ) : ℚ :=
  (localContinuum fw + fw.getD (argminIdx fw) 0) / 2

/-- Indices strictly left of the flux minimum whose flux is at/below the
half-maximum level (`np.where(flux_window[:min_flux_idx] <= half_max)[0]`). -/
def leftQualifiers (fw : List ℚ) : List ℕ :=
  (List.range (argminIdx fw)).filter
    (fun j => decide (fw.getD j 0 ≤ halfMaxLevel fw))

/-- Offsets `j ≥ 0` such that the flux at `min_flux_idx + j` is at/below the
half-maximum level (`np.where(flux_window[min_flux_idx:] <= half_max)[0]`) —
note this search includes the minimum itself at offset `0`. -/
def rightQualifiers (fw : List ℚ) : List ℕ :=
  (List.range (fw.length - argminIdx fw)).filter
    (fun j => decide (fw.getD (argminIdx fw + j) 0 ≤ halfMaxLevel fw))

def measure_line_parameters (wavelengths flux : List ℚ)
    (line_center window : ℚ) (integ : List ℚ → List ℚ → ℚ) :
    Option LineMeasurement :=
  let wlw := windowWl wavelengths flux line_center window
  let fw := windowFlux wavelengths flux line_center window
  if fw = [] then none
  else
    let min_flux_idx := argminIdx fw
    let observed_center := wlw.getD min_flux_idx 0
    let min_flux := fw.getD min_flux_idx 0
    let continuum := localContinuum fw
    let equivalent_width := integ (fw.map (fun f => 1 - f / continuum)) wlw
    let fwhm : Option ℚ :=
      match (leftQualifiers fw).getLast?, (rightQualifiers fw).head? with
      | some l, some r =>
          some (wlw.getD (min_flux_idx + r) 0 - wlw.getD l 0)
      | _, _ => none
    let depth := 1 - min_flux / continuum
    some { observed_center := observed_center,
           equivalent_width := equivalent_width,
           fwhm := fwhm,
           depth := depth,
           continuum_level := continuum,
           redshift := none }

/-- The FWHM that claim C2 describes, written from the claim's words: the
distance between the nearest wavelength strictly left of the flux minimum at
or below half-max and the nearest wavelength strictly right of the flux
minimum at or below half-max, `none` when either side has no such sample. -/
def fwhm_claimed (wavelengths flux : List ℚ) (line_center window : ℚ) :
    Option ℚ :=
  let wlw := windowWl wavelengths flux line_center window
  let fw := windowFlux wavelengths flux line_center window
  let mi := argminIdx fw
  let half := halfMaxLevel fw
  let strictLeft :=
    ((List.range mi).filter (fun j => decide (fw.getD j 0 ≤ half))).getLast?
  let strictRight :=
    ((List.range (fw.length - mi - 1)).filter
      (fun j => decide (fw.getD (mi + 1 + j) 0 ≤ half))).head?
  match strictLeft, strictRight with
  | some l, some r => some (wlw.getD (mi + 1 + r) 0 - wlw.getD l 0)
  | _, _ => none

theorem head_filter_range {n : ℕ} {p : ℕ → Bool} (hn : 0 < n)
    (hp : p 0 = true) : ((List.range n).filter p).head? = some 0 := by
  obtain ⟨m, rfl⟩ : ∃ m, n = m + 1 := ⟨n - 1, by omega⟩
  rw [List.range_succ_eq_map]
  simp [List.filter_cons, hp]

/-- The window's minimum flux never exceeds the local continuum, since each
of the two medians is taken over a subset of the window. -/
theorem min_le_localContinuum {fw : List ℚ} (hne : fw ≠ []) :
    fw.getD (argminIdx fw) 0 ≤ localContinuum fw := by
  have hlen : 0 < fw.length := List.length_pos.mpr hne
  have htake : fw.take 5 ≠ [] := by
    apply List.ne_nil_of_length_pos
    rw [List.length_take]
    omega
  have hdrop : fw.drop (fw.length - 5) ≠ [] := by
    apply List.ne_nil_of_length_pos
    rw [List.length_drop]
    omega
  have h1 : fw.getD (argminIdx fw) 0 ≤ npMedian (fw.take 5) :=
    le_npMedian_of_forall_le htake
      (fun y hy => getD_argminIdx_le y (List.mem_of_mem_take hy))
  have h2 : fw.getD (argminIdx fw) 0 ≤ npMedian (fw.drop (fw.length - 5)) :=
    le_npMedian_of_forall_le hdrop
      (fun y hy => getD_argminIdx_le y (List.mem_of_mem_drop hy))
  unfold localContinuum
  linarith

/-- The flux at the minimum is at or below the half-maximum level, so offset
`0` — the minimum itself — always qualifies in the rightward search. -/
theorem head_rightQualifiers {fw : List ℚ} (hne : fw ≠ []) :
    (rightQualifiers fw).head? = some 0 := by
  have hlt := argminIdx_lt_length hne
  have hmin := min_le_localContinuum hne
  unfold rightQualifiers
  apply head_filter_range (by omega)
  have : fw.getD (argminIdx fw + 0) 0 ≤ halfMaxLevel fw := by
    unfold halfMaxLevel
    simp only [Nat.add_zero]
    linarith
  exact decide_eq_true this

/-- C2 amended: when the line window is non-empty, the half-max search to the
right starts at the flux minimum itself, which always qualifies (the local
continuum is at least the minimum flux), so the right endpoint is the
minimum's own wavelength rather than a sample strictly right of it. Hence
`fwhm = observed_center − (nearest strictly-left wavelength at/below
half-max)`, and `fwhm` is NaN exactly when the left side has no qualifying
sample. -/
theorem measure_fwhm_spec (wavelengths flux : List ℚ)
    (line_center window : ℚ) (integ : List ℚ → List ℚ → ℚ)
    (hne : windowFlux wavelengths flux line_center window ≠ []) :
    ∃ m, measure_line_parameters wavelengths flux line_center window integ =
        some m ∧
      m.observed_center = (windowWl wavelengths flux line_center window).getD
        (argminIdx (windowFlux wavelengths flux line_center window)) 0 ∧
      m.fwhm = (leftQualifiers
          (windowFlux wavelengths flux line_center window)).getLast?.map
        (fun l => m.observed_center -
          (windowWl wavelengths flux line_center window).getD l 0) ∧
      (m.fwhm = none ↔
        leftQualifiers (windowFlux wavelengths flux line_center window) = []) := by
  have hright := head_rightQualifiers hne
  unfold measure_line_parameters
  rw [if_neg hne]
  refine ⟨_, rfl, rfl, ?_, ?_⟩
  · rw [hright]
    cases hL : (leftQualifiers
        (windowFlux wavelengths flux line_center window)).getLast? with
    | none => rfl
    | some l => simp
  · rw [hright]
    cases hL : (leftQualifiers
        (windowFlux wavelengths flux line_center window)).getLast? with
    | none =>
      simp only [true_iff]
      exact List.getLast?_eq_none_iff.mp hL
    | some l =>
      simp only [iff_false]
      constructor
      · intro hcontra
        exact Option.noConfusion hcontra
      · intro hnil
        rw [hnil] at hL
        exact Option.noConfusion hL

/-- C2 as stated is false: on the window below (minimum flux 0 at wavelength
4, continuum 10, half-max 5), the code returns `fwhm = 1` — the distance
from wavelength 3 to the minimum's own wavelength 4, because the rightward
search includes the minimum itself — while the claim's distance to the
nearest wavelength strictly right of the minimum at/below half-max
(wavelength 5) is `2`. -/
theorem measure_fwhm_counterexample :
    (measure_line_parameters [0, 1, 2, 3, 4, 5, 6, 7, 8]
      [10, 10, 10, 3, 0, 3, 10, 10, 10] 4 10
      (fun _ _ => 0)).map (fun m => m.fwhm) = some (some 1) ∧
    fwhm_claimed [0, 1, 2, 3, 4, 5, 6, 7, 8]
      [10, 10, 10, 3, 0, 3, 10, 10, 10] 4 10 = some 2 ∧
    some (1 : ℚ) ≠ some (2 : ℚ) := by
  have hwin : windowFlux [0,1,2,3,4,5,6,7,8] [10,10,10,3,0,3,10,10,10] 4 10
      = [10,10,10,3,0,3,10,10,10] := by
    norm_num [windowFlux, lineWindow, List.filter]
  have hwl : windowWl [0,1,2,3,4,5,6,7,8] [10,10,10,3,0,3,10,10,10] 4 10
      = [0,1,2,3,4,5,6,7,8] := by
    norm_num [windowWl, lineWindow, List.filter]
  have a1 : argminIdx ([10] : List ℚ) = 0 := by norm_num [argminIdx]
  have a2 : argminIdx ([10,10] : List ℚ) = 0 := by
    rw [show ([10,10] : List ℚ) = 10 :: [10] from rfl,
      argminIdx_cons 10 (by simp), a1]
    norm_num
  have a3 : argminIdx ([10,10,10] : List ℚ) = 0 := by
    rw [show ([10,10,10] : List ℚ) = 10 :: [10,10] from rfl,
      argminIdx_cons 10 (by simp), a2]
    norm_num
  have a4 : argminIdx ([3,10,10,10] : List ℚ) = 0 := by
    rw [show ([3,10,10,10] : List ℚ) = 3 :: [10,10,10] from rfl,
      argminIdx_cons 3 (by simp), a3]
    norm_num
  have a5 : argminIdx ([0,3,10,10,10] : List ℚ) = 0 := by
    rw [show ([0,3,10,10,10] : List ℚ) = 0 :: [3,10,10,10] from rfl,
      argminIdx_cons 0 (by simp), a4]
    norm_num
  have a6 : argminIdx ([3,0,3,10,10,10] : List ℚ) = 1 := by
    rw [show ([3,0,3,10,10,10] : List ℚ) = 3 :: [0,3,10,10,10] from rfl,
      argminIdx_cons 3 (by simp), a5]
    norm_num
  have a7 : argminIdx ([10,3,0,3,10,10,10] : List ℚ) = 2 := by
    rw [show ([10,3,0,3,10,10,10] : List ℚ) = 10 :: [3,0,3,10,10,10] from rfl,
      argminIdx_cons 10 (by simp), a6]
    norm_num
  have a8 : argminIdx ([10,10,3,0,3,10,10,10] : List ℚ) = 3 := by
    rw [show ([10,10,3,0,3,10,10,10] : List ℚ) =
      10 :: [10,3,0,3,10,10,10] from rfl, argminIdx_cons 10 (by simp), a7]
    norm_num
  have a9 : argminIdx ([10,10,10,3,0,3,10,10,10] : List ℚ) = 4 := by
    rw [show ([10,10,10,3,0,3,10,10,10] : List ℚ) =
      10 :: [10,10,3,0,3,10,10,10] from rfl, argminIdx_cons 10 (by simp), a8]
    norm_num
  have hcont : localContinuum ([10,10,10,3,0,3,10,10,10] : List ℚ) = 10 := by
    norm_num [localContinuum, npMedian, isort, insertSorted]
  have hhalf : halfMaxLevel ([10,10,10,3,0,3,10,10,10] : List ℚ) = 5 := by
    norm_num [halfMaxLevel, hcont, a9]
  have hleft : leftQualifiers ([10,10,10,3,0,3,10,10,10] : List ℚ) = [3] := by
    rw [leftQualifiers, a9, hhalf]
    norm_num [List.range_succ, List.filter]
  have hright : rightQualifiers ([10,10,10,3,0,3,10,10,10] : List ℚ)
      = [0,1] := by
    rw [rightQualifiers, a9, hhalf]
    norm_num [List.range_succ, List.filter]
  refine ⟨?_, ?_, by simp⟩
  · rw [measure_line_parameters, hwin, hwl, if_neg (by simp), a9, hleft,
      hright]
    norm_num
  · rw [fwhm_claimed, hwin, hwl, a9, hhalf]
    norm_num [List.range_succ, List.filter]

/-- Witness for the amended C2 on a concrete three-sample window. -/
theorem measure_fwhm_spec_witness :
    windowFlux [1, 2, 3] [5, 1, 5] 2 10 ≠ [] ∧
    ∃ m, measure_line_parameters [1, 2, 3] [5, 1, 5] 2 10
        (fun _ _ => 0) = some m ∧
      m.observed_center = (windowWl [1, 2, 3] [5, 1, 5] 2 10).getD
        (argminIdx (windowFlux [1, 2, 3] [5, 1, 5] 2 10)) 0 ∧
      m.fwhm = (leftQualifiers (windowFlux [1, 2, 3] [5, 1, 5] 2 10)).getLast?.map
        (fun l => m.observed_center -
          (windowWl [1, 2, 3] [5, 1, 5] 2 10).getD l 0) ∧
      (m.fwhm = none ↔
        leftQualifiers (windowFlux [1, 2, 3] [5, 1, 5] 2 10) = []) := by
  have hne : windowFlux [1, 2, 3] [5, 1, 5] 2 10 ≠ [] := by
    have hv : windowFlux [1, 2, 3] [5, 1, 5] 2 10 = [5, 1, 5] := by
      norm_num [windowFlux, lineWindow, List.filter]
    rw [hv]
    exact List.cons_ne_nil _ _
  exact ⟨hne, measure_fwhm_spec [1, 2, 3] [5, 1, 5] 2 10 (fun _ _ => 0) hne⟩

/-! ## Redshift Estimator — `spectral_analysis`

```python
def calculate_redshift(observed_wavelength, rest_wavelength):
    return (observed_wavelength - rest_wavelength) / rest_wavelength

def robust_redshift_calculation(redshifts, sigma_clip=3.0):
    if len(redshifts) == 0:
        return None, None, 0
    median_z = np.median(redshifts)
    mad_z = median_abs_deviation(redshifts)
    filtered_redshifts = [z for z in redshifts if abs(z - median_z) < sigma_clip * mad_z]
    if len(filtered_redshifts) == 0:
        return median_z, mad_z, len(redshifts)
    mean_z = np.mean(filtered_redshifts)
    std_z = np.std(filtered_redshifts)
    return mean_z, std_z, len(filtered_redshifts)
```

`scipy.stats.median_abs_deviation` with its defaults is
`median(|z - median(z)|)`. The error component the code returns is
`np.std(filtered)` in the retained branch and `mad_z` in the fallback
branch; since `np.std` is a square root that need not be rational, the
embedding records the error's exact **square** in both branches
(`listVar filtered`, respectively `mad_z ^ 2`), from which the code's float
is the nonnegative square root.
-/

def calculate_redshift (observed_wavelength rest_wavelength : ℚ) : ℚ :=
  (observed_wavelength - rest_wavelength) / rest_wavelength

/-- `median_abs_deviation` (scale 1, center `np.median`). -/
def madZ (redshifts : List ℚ) : ℚ :=
  npMedian (redshifts.map (fun z => |z - npMedian redshifts|))

/-- The sigma-clip retention list: values strictly within
`sigma_clip * MAD` of the median. -/
def clipRetained (redshifts : List ℚ) (sigma_clip : ℚ) : List ℚ :=
  redshifts.filter
    (fun z => decide (|z - npMedian redshifts| < sigma_clip * madZ redshifts))

/-- `robust_redshift_calculation`, returning
`(value, error², lines used)`; `none` models the `(None, None, 0)` return. -/
def robust_redshift_calculation (redshifts : List ℚ) (sigma_clip : ℚ) :
    Option (ℚ × ℚ × ℕ) :=
  if redshifts = [] then none
  else
    let median_z := npMedian redshifts
    let mad_z := madZ redshifts
    let filtered := clipRetained redshifts sigma_clip
    if filtered = [] then some (median_z, mad_z ^ 2, redshifts.length)
    else some (listMean filtered, listVar filtered, filtered.length)

/-- C5: the sigma-clip retains exactly the values strictly within
`sigma_clip × MAD` of the median; with at least one value retained, the
result is the arithmetic mean, the (squared) standard deviation and the
count of the retained values. On `[0.001, 0.0012, 0.0009, 0.05]` with
`sigma_clip = 2` the outlier `0.05` is excluded and 3 lines are used. -/
theorem robust_redshift_spec :
    (∀ (redshifts : List ℚ) (sigma_clip : ℚ),
      redshifts ≠ [] → clipRetained redshifts sigma_clip ≠ [] →
      robust_redshift_calculation redshifts sigma_clip =
        some (listMean (clipRetained redshifts sigma_clip),
              listVar (clipRetained redshifts sigma_clip),
              (clipRetained redshifts sigma_clip).length)) ∧
    clipRetained [1/1000, 12/10000, 9/10000, 5/100] 2 =
      [1/1000, 12/10000, 9/10000] ∧
    (5 : ℚ)/100 ∉ clipRetained [1/1000, 12/10000, 9/10000, 5/100] 2 ∧
    (robust_redshift_calculation [1/1000, 12/10000, 9/10000, 5/100] 2).map
      (fun r => r.2.2) = some 3 := by
  have hgen : ∀ (redshifts : List ℚ) (sigma_clip : ℚ),
      redshifts ≠ [] → clipRetained redshifts sigma_clip ≠ [] →
      robust_redshift_calculation redshifts sigma_clip =
        some (listMean (clipRetained redshifts sigma_clip),
              listVar (clipRetained redshifts sigma_clip),
              (clipRetained redshifts sigma_clip).length) := by
    intro redshifts sigma_clip h1 h2
    unfold robust_redshift_calculation
    rw [if_neg h1, if_neg h2]
  have hmed : npMedian ([1/1000, 12/10000, 9/10000, 5/100] : List ℚ)
      = 11/10000 := by
    norm_num [npMedian, isort, insertSorted]
  have hmad : madZ ([1/1000, 12/10000, 9/10000, 5/100] : List ℚ)
      = 3/20000 := by
    rw [madZ, hmed]
    norm_num [npMedian, isort, insertSorted, abs]
  have hclip : clipRetained [1/1000, 12/10000, 9/10000, 5/100] 2 =
      [1/1000, 12/10000, 9/10000] := by
    rw [clipRetained, hmed, hmad]
    norm_num [List.filter, abs]
  refine ⟨hgen, hclip, ?_, ?_⟩
  · rw [hclip]
    norm_num
  · rw [hgen _ _ (by simp) (by rw [hclip]; exact List.cons_ne_nil _ _), hclip]
    simp

/-- Witness for C5's universally quantified part at the claim's example. -/
theorem robust_redshift_spec_witness :
    ([1/1000, 12/10000, 9/10000, 5/100] : List ℚ) ≠ [] ∧
    robust_redshift_calculation [1/1000, 12/10000, 9/10000, 5/100] 2 =
      some (listMean (clipRetained [1/1000, 12/10000, 9/10000, 5/100] 2),
            listVar (clipRetained [1/1000, 12/10000, 9/10000, 5/100] 2),
            (clipRetained [1/1000, 12/10000, 9/10000, 5/100] 2).length) := by
  have hclip := robust_redshift_spec.2.1
  refine ⟨by simp, robust_redshift_spec.1 _ _ (by simp) ?_⟩
  rw [hclip]
  exact List.cons_ne_nil _ _

/-- C6: when the sigma-clip retains nothing, the fallback reports the
unfiltered median, the unfiltered MAD (recorded as its square) and a usage
count equal to the full list length; more generally, for every non-empty
input the reported usage count is positive — never zero. -/
theorem robust_redshift_fallback_spec :
    (∀ (redshifts : List ℚ) (sigma_clip : ℚ),
      redshifts ≠ [] → clipRetained redshifts sigma_clip = [] →
      robust_redshift_calculation redshifts sigma_clip =
        some (npMedian redshifts, madZ redshifts ^ 2, redshifts.length)) ∧
    (∀ (redshifts : List ℚ) (sigma_clip : ℚ) (r : ℚ × ℚ × ℕ),
      redshifts ≠ [] →
      robust_redshift_calculation redshifts sigma_clip = some r →
      0 < r.2.2) := by
  constructor
  · intro redshifts sigma_clip h1 h2
    unfold robust_redshift_calculation
    rw [if_neg h1, if_pos h2]
  · intro redshifts sigma_clip r h1 hr
    unfold robust_redshift_calculation at hr
    rw [if_neg h1] at hr
    by_cases h2 : clipRetained redshifts sigma_clip = []
    · rw [if_pos h2] at hr
      cases hr
      simpa using List.length_pos.mpr h1
    · rw [if_neg h2] at hr
      cases hr
      simpa using List.length_pos.mpr h2

/-- Witness for C6: on `[0, 1]` with `sigma_clip = 1` every value is clipped
(each deviation equals `1 × MAD = 1/2`, and the comparison is strict), so
the fallback reports the unfiltered median `1/2`, MAD `1/2` (squared:
`1/4`) and both lines used. -/
theorem robust_redshift_fallback_spec_witness :
    ([0, 1] : List ℚ) ≠ [] ∧
    clipRetained [0, 1] 1 = [] ∧
    robust_redshift_calculation [0, 1] 1 = some (1/2, 1/4, 2) := by
  have hmed : npMedian ([0, 1] : List ℚ) = 1/2 := by
    norm_num [npMedian, isort, insertSorted]
  have hmad : madZ ([0, 1] : List ℚ) = 1/2 := by
    rw [madZ, hmed]
    norm_num [npMedian, isort, insertSorted, abs]
  have hclip : clipRetained [0, 1] 1 = [] := by
    rw [clipRetained, hmed, hmad]
    norm_num [List.filter, abs]
  refine ⟨by simp, hclip, ?_⟩
  rw [robust_redshift_fallback_spec.1 [0, 1] 1 (by simp) hclip, hmed, hmad]
  norm_num

/-! ## SNR — `spectral_analysis.calculate_snr`

```python
def calculate_snr(flux, window=100):
    n_segments = len(flux) // window
    snr_values = []
    for i in range(n_segments):
        segment = flux[i*window:(i+1)*window]
        signal = np.median(segment)
        noise = np.std(segment)
        if noise > 0:
            snr_values.append(signal / noise)
    return np.median(snr_values) if snr_values else 0
```

`np.std` is a real square root, so this one routine is modelled over `ℝ`
(the generic `npMedian` applies to `ℝ` as well).
-/

/-- The fixed-size non-overlapping segments `flux[i*window:(i+1)*window]`,
`i < len(flux) // window`. -/
def segmentsOf (flux : List ℚ) (window : ℕ) : List (List ℚ) :=
  (List.range (flux.length / window)).map
    (fun i => (flux.drop (i * window)).take window)

/-- `np.std`, population standard deviation. -/
noncomputable def npStd (xs : List ℚ) : ℝ :=
  Real.sqrt ((listVar xs : ℚ) : ℝ)

noncomputable def calculate_snr (flux : List ℚ) (window : ℕ) : ℝ :=
  let snr_values := (segmentsOf flux window).filterMap (fun s =>
    if 0 < npStd s then some (((npMedian s : ℚ) : ℝ) / npStd s) else none)
  if snr_values = [] then 0 else npMedian snr_values

theorem listVar_nonneg (xs : List ℚ) : 0 ≤ listVar xs := by
  unfold listVar
  apply div_nonneg _ (by positivity)
  apply List.sum_nonneg
  intro x hx
  obtain ⟨y, _, rfl⟩ := List.mem_map.mp hx
  positivity

theorem filterMap_if_eq_map_filter {α β : Type} (p : α → Prop)
    [DecidablePred p] (q : α → Bool) (f : α → β) (l : List α)
    (hpq : ∀ a ∈ l, p a ↔ q a = true) :
    l.filterMap (fun a => if p a then some (f a) else none) =
      (l.filter q).map f := by
  induction l with
  | nil => rfl
  | cons a l ih =>
    have hq := hpq a (List.mem_cons_self a l)
    have hrest : ∀ b ∈ l, p b ↔ q b = true :=
      fun b hb => hpq b (List.mem_cons_of_mem a hb)
    by_cases hp : p a
    · rw [List.filterMap_cons, if_pos hp, List.filter_cons,
        if_pos (hq.mp hp), List.map_cons, ih hrest]
    · have : ¬ q a = true := fun hc => hp (hq.mpr hc)
      rw [List.filterMap_cons, if_neg hp, List.filter_cons,
        if_neg this, ih hrest]

/-- C8: per-segment signal/noise ratios over the fixed-size non-overlapping
segments; a segment contributes iff its noise is strictly positive, which
happens iff its (rational) variance is strictly positive; the SNR is the
median of the contributing ratios, and `0` when no segment contributes —
in particular whenever the array is shorter than one segment. -/
theorem calculate_snr_spec (flux : List ℚ) (window : ℕ) :
    (∀ s ∈ segmentsOf flux window, (0 < npStd s ↔ 0 < listVar s)) ∧
    calculate_snr flux window =
      (if (segmentsOf flux window).filter (fun s => decide (0 < listVar s))
          = [] then (0 : ℝ)
       else npMedian (((segmentsOf flux window).filter
          (fun s => decide (0 < listVar s))).map
         (fun s => ((npMedian s : ℚ) : ℝ) / npStd s))) ∧
    (flux.length < window → calculate_snr flux window = 0) := by
  have hiff : ∀ s : List ℚ, (0 < npStd s ↔ 0 < listVar s) := by
    intro s
    unfold npStd
    rw [Real.sqrt_pos]
    exact_mod_cast Iff.rfl
  have hmaps : (segmentsOf flux window).filterMap (fun s =>
      if 0 < npStd s then some (((npMedian s : ℚ) : ℝ) / npStd s) else none) =
      ((segmentsOf flux window).filter
        (fun s => decide (0 < listVar s))).map
        (fun s => ((npMedian s : ℚ) : ℝ) / npStd s) := by
    apply filterMap_if_eq_map_filter
    intro s _
    rw [hiff s]
    simp
  refine ⟨fun s _ => hiff s, ?_, ?_⟩
  · unfold calculate_snr
    rw [hmaps]
    by_cases hnil : (segmentsOf flux window).filter
        (fun s => decide (0 < listVar s)) = []
    · rw [if_pos hnil, hnil, List.map_nil, if_pos rfl]
    · rw [if_neg hnil,
        if_neg (fun hc => hnil (List.map_eq_nil_iff.mp hc))]
  · intro hlt
    unfold calculate_snr segmentsOf
    rw [Nat.div_eq_of_lt hlt]
    simp

/-- Witness for C8: one sample is shorter than a two-sample segment, so the
SNR defaults to 0. -/
theorem calculate_snr_spec_witness :
    ([(7 : ℚ)] : List ℚ).length < 2 ∧ calculate_snr [(7 : ℚ)] 2 = 0 :=
  ⟨by norm_num, (calculate_snr_spec [(7 : ℚ)] 2).2.2 (by norm_num)⟩

/-! ## Report Assembler — `spectral_analysis.generate_spectral_report`

The absorption-line loop is the part claims constrain:

```python
report['absorption_lines'] = {}
redshifts = []
for name, rest_wl in lines_dict.items():
    measurement = measure_line_parameters(wavelengths, flux, rest_wl)
    if measurement:
        report['absorption_lines'][name] = measurement
        z = calculate_redshift(measurement['observed_center'], rest_wl)
        measurement['redshift'] = z
        redshifts.append(z)
```

The stored dict and the mutated `measurement` are the same object, so every
stored measurement carries the redshift. `find_peaks`/`peak_widths`
(`find_emission_lines`) and `calculate_snr`'s real value are parameters;
the ordered `lines_dict` is a list of (name, rest wavelength). The radial
velocity error is `std_z * c`; as with the redshift error the embedding
records its exact square. -/

def calculate_mg_fe_index (wavelengths flux : List ℚ)
    (mg_line fe_line window : ℚ) : ℚ :=
  let sel := fun (center : ℚ) =>
    ((wavelengths.zip flux).filter (fun p =>
      decide (center - window ≤ p.1) && decide (p.1 ≤ center + window))).map
      Prod.snd
  listMean (sel mg_line) / listMean (sel fe_line)

def estimate_temperature (hbeta_ew : ℚ) : String × ℚ :=
  if hbeta_ew < 2 then ("Muy caliente (>10000 K)", 11000)
  else if hbeta_ew < 4 then ("Caliente (8000-10000 K)", 9000)
  else if hbeta_ew < 6 then ("Intermedia (6000-8000 K)", 7000)
  else ("Fría (<6000 K)", 5500)

structure EmissionLine where
  wavelength : ℚ
  strength : ℚ
  fwhm : ℚ
deriving DecidableEq

structure Report where
  wr_min : ℚ
  wr_max : ℚ
  wr_delta : ℚ
  snr : ℝ
  absorption_lines : List (String × LineMeasurement)
  redshift : Option (ℚ × ℚ × ℕ × ℕ)
  radial_velocity : Option (ℚ × ℚ)
  emission_lines : List EmissionLine
  mg_fe_ratio : ℚ
  metallicity_estimate : String
  temperature_estimate : Option String
  temperature_value : Option ℚ

/-- `c = 299792.458 km/s`. -/
def cKms : ℚ := 299792458 / 1000

/-- The absorption-line loop: lines whose window yields a measurement, each
stored with its redshift attached. -/
def absorptionLines (wavelengths flux : List ℚ)
    (lines_dict : List (String × ℚ)) (integ : List ℚ → List ℚ → ℚ) :
    List (String × LineMeasurement) :=
  lines_dict.filterMap (fun nr =>
    (measure_line_parameters wavelengths flux nr.2 10 integ).map
      (fun m => (nr.1,
        { m with redshift := some (calculate_redshift m.observed_center nr.2) })))

/-- The `redshifts` list accumulated by the same loop. -/
def lineRedshifts (wavelengths flux : List ℚ)
    (lines_dict : List (String × ℚ)) (integ : List ℚ → List ℚ → ℚ) :
    List ℚ :=
  lines_dict.filterMap (fun nr =>
    (measure_line_parameters wavelengths flux nr.2 10 integ).map
      (fun m => calculate_redshift m.observed_center nr.2))

def generate_spectral_report (wavelengths flux ivar : List ℚ)
    (lines_dict : List (String × ℚ)) (redshift_sigma_clip : ℚ)
    (integ : List ℚ → List ℚ → ℚ) (snrF : List ℚ → ℝ)
    (emisF : List ℚ → List ℚ → List EmissionLine) : Report :=
  let absorption := absorptionLines wavelengths flux lines_dict integ
  let redshifts := lineRedshifts wavelengths flux lines_dict integ
  let zres : Option (ℚ × ℚ × ℕ) :=
    if redshifts = [] then none
    else robust_redshift_calculation redshifts redshift_sigma_clip
  let mgfe := calculate_mg_fe_index wavelengths flux 5175 5270 20
  let temp : Option (String × ℚ) :=
    (absorption.lookup "Hβ").map
      (fun m => estimate_temperature m.equivalent_width)
  { wr_min := listMin wavelengths
    wr_max := listMax wavelengths
    wr_delta := listMax wavelengths - listMin wavelengths
    snr := snrF flux
    absorption_lines := absorption
    redshift := zres.map (fun r => (r.1, r.2.1, r.2.2, redshifts.length))
    radial_velocity := zres.map (fun r => (r.1 * cKms, r.2.1 * cKms ^ 2))
    emission_lines := emisF wavelengths flux
    mg_fe_ratio := mgfe
    metallicity_estimate :=
      if mgfe < 9/10 then "Baja metalicidad"
      else if mgfe < 11/10 then "Metalicidad solar"
      else "Alta metalicidad"
    temperature_estimate := temp.map Prod.fst
    temperature_value := temp.map Prod.snd }

/-- C10: every line measurement stored in the report's absorption-line
mapping carries a redshift equal to
`(observed_center − rest_wavelength) / rest_wavelength` for its line — the
optional field is present for every included line, for any inputs and any
behaviour of the abstracted SciPy routines. -/
theorem report_redshift_attached (wavelengths flux ivar : List ℚ)
    (lines_dict : List (String × ℚ)) (redshift_sigma_clip : ℚ)
    (integ : List ℚ → List ℚ → ℚ) (snrF : List ℚ → ℝ)
    (emisF : List ℚ → List ℚ → List EmissionLine) :
    ∀ nm m, (nm, m) ∈ (generate_spectral_report wavelengths flux ivar
        lines_dict redshift_sigma_clip integ snrF emisF).absorption_lines →
      ∃ rest, (nm, rest) ∈ lines_dict ∧
        m.redshift = some ((m.observed_center - rest) / rest) := by
  intro nm m hm
  have hm2 : (nm, m) ∈ absorptionLines wavelengths flux lines_dict integ := hm
  obtain ⟨nr, hmem, heq⟩ := List.mem_filterMap.mp hm2
  cases hmp : measure_line_parameters wavelengths flux nr.2 10 integ with
  | none =>
    rw [hmp] at heq
    exact Option.noConfusion heq
  | some m0 =>
    rw [hmp] at heq
    simp only [Option.map_some'] at heq
    obtain ⟨hnm, hmval⟩ := Prod.mk.injEq .. ▸ Option.some.inj heq
    refine ⟨nr.2, ?_, ?_⟩
    · rw [← hnm]
      simpa using hmem
    · rw [← hmval]
      simp [calculate_redshift]

/-- The measurement the C10 witness spectrum produces for its single line. -/
def witnessMeasurement : LineMeasurement :=
  { observed_center := 5, equivalent_width := 0, fwhm := none,
    depth := 1/2, continuum_level := 2, redshift := some 0 }

/-- Witness for C10 on a three-sample spectrum with one reference line. -/
theorem report_redshift_attached_witness :
    ("L", witnessMeasurement) ∈
      (generate_spectral_report [4, 5, 6] [2, 1, 2] [1, 1, 1] [("L", 5)] 2
        (fun _ _ => 0) (fun _ => 0) (fun _ _ => [])).absorption_lines ∧
    ∃ rest, (("L" : String), rest) ∈ ([("L", (5 : ℚ))] : List (String × ℚ)) ∧
      witnessMeasurement.redshift =
        some ((witnessMeasurement.observed_center - rest) / rest) := by
  have hwin : windowFlux [4,5,6] [2,1,2] 5 10 = [2,1,2] := by
    norm_num [windowFlux, lineWindow, List.filter]
  have hwl : windowWl [4,5,6] [2,1,2] 5 10 = [4,5,6] := by
    norm_num [windowWl, lineWindow, List.filter]
  have b1 : argminIdx ([2] : List ℚ) = 0 := by norm_num [argminIdx]
  have b2 : argminIdx ([1,2] : List ℚ) = 0 := by
    rw [show ([1,2] : List ℚ) = 1 :: [2] from rfl, argminIdx_cons 1 (by simp),
      b1]
    norm_num
  have b3 : argminIdx ([2,1,2] : List ℚ) = 1 := by
    rw [show ([2,1,2] : List ℚ) = 2 :: [1,2] from rfl,
      argminIdx_cons 2 (by simp), b2]
    norm_num
  have hcont : localContinuum ([2,1,2] : List ℚ) = 2 := by
    norm_num [localContinuum, npMedian, isort, insertSorted]
  have hhalf : halfMaxLevel ([2,1,2] : List ℚ) = 3/2 := by
    norm_num [halfMaxLevel, hcont, b3]
  have hleft : leftQualifiers ([2,1,2] : List ℚ) = [] := by
    rw [leftQualifiers, b3, hhalf]
    norm_num [List.range_succ, List.filter]
  have hright : rightQualifiers ([2,1,2] : List ℚ) = [0] := by
    rw [rightQualifiers, b3, hhalf]
    norm_num [List.range_succ, List.filter]
  have hmeas : measure_line_parameters [4,5,6] [2,1,2] 5 10 (fun _ _ => 0) =
      some { observed_center := 5, equivalent_width := 0, fwhm := none,
             depth := 1/2, continuum_level := 2, redshift := none } := by
    rw [measure_line_parameters, hwin, hwl, if_neg (by simp), b3, hleft,
      hright, hcont]
    norm_num
  have habs : absorptionLines [4,5,6] [2,1,2] [("L", 5)] (fun _ _ => 0) =
      [("L", witnessMeasurement)] := by
    rw [absorptionLines]
    simp [hmeas, calculate_redshift, witnessMeasurement]
  have hmem : ("L", witnessMeasurement) ∈
      (generate_spectral_report [4, 5, 6] [2, 1, 2] [1, 1, 1] [("L", 5)] 2
        (fun _ _ => 0) (fun _ => 0) (fun _ _ => [])).absorption_lines := by
    show _ ∈ absorptionLines [4,5,6] [2,1,2] [("L", 5)] (fun _ _ => 0)
    rw [habs]
    exact List.mem_singleton.mpr rfl
  exact ⟨hmem, report_redshift_attached [4, 5, 6] [2, 1, 2] [1, 1, 1]
    [("L", 5)] 2 (fun _ _ => 0) (fun _ => 0) (fun _ _ => []) "L" _ hmem⟩

/-! ## Main pipeline — `main.main`, steps 2–6

```python
m = valid_mask(flux, ivar)            # np.isfinite(flux) & np.isfinite(ivar) & (ivar > 0)
wl, flux, ivar = wl[m], flux[m], ivar[m]
wl_r, flux_r, ivar_r = rebin_spectrum(wl, flux, ivar, factor=params["REBIN_FACTOR"])
if len(flux_r) == 0:
    print("Error: El array está vacío después del rebinado.")
    return                            # terminal error, no report
current_sg_window = params["SG_WINDOW"]
if params["SG_WINDOW"] > len(flux_r):
    current_sg_window = len(flux_r) - 1 if len(flux_r) % 2 == 0 else len(flux_r)
    current_sg_window = max(3, current_sg_window)
flux_smooth = try_savgol(flux_r, window=current_sg_window, poly=..., moving_avg_window=...)
flux_enhanced = enhance_line_detection(flux_smooth, enhancement_factor=1.3)
if params["DO_CONTINUUM_NORM"]:
    cont = running_percentile(flux_enhanced, win=..., q=...)
    cont = np.where(cont <= 0, np.nanmedian(cont[cont>0]), cont)
    flux_plot = flux_enhanced / cont
else:
    flux_plot = flux_enhanced
report = generate_spectral_report(wl_r, flux_plot, ivar_r, lines_dict, ...)
```

Raw flux/ivar are `EFloat` so the mask's finiteness conjuncts are real. The
terminal empty-spectrum message-and-return is `Except.error`. Inside the ok
branch the value flow uses total `ℚ` operations (`enhance_total`,
`ℚ`-division); this matches the float code except in NaN-degenerate corners
(settled separately in C4), which alter values but never control flow — and
C9's theorem speaks only about control flow. -/

inductive AnalysisError where
  | emptySpectrum
deriving DecidableEq

/-- `valid_mask`: finite flux, finite ivar, strictly positive ivar,
elementwise over the aligned pair of arrays. -/
def valid_mask (flux ivar : List EFloat) : List Bool :=
  (flux.zip ivar).map
    (fun p => p.1.isSome && p.2.isSome && decide (0 < p.2.getD 0))

/-- NumPy boolean-mask indexing `xs[m]`. -/
def applyMask {α : Type} (xs : List α) (m : List Bool) : List α :=
  ((xs.zip m).filter (fun p => p.2)).map Prod.fst

/-- Steps 1–2 of `main` after ingestion: mask all three arrays. -/
def maskedTriple (wl : List ℚ) (flux ivar : List EFloat) :
    List ℚ × List ℚ × List ℚ :=
  let m := valid_mask flux ivar
  (applyMask wl m, (applyMask flux m).map (fun f => f.getD 0),
    (applyMask ivar m).map (fun v => v.getD 0))

/-- `enhance_line_detection` as used mid-pipeline, with total `ℚ`
operations (`x / 0 = 0`): values diverge from the float code only in the
NaN corner settled by `enhance_line_detection_const_nan`. -/
def enhance_total (flux : List ℚ) (enhancement_factor : ℚ)
    (powF : ℚ → ℚ → ℚ) : List ℚ :=
  let mn := listMin flux
  let mx := listMax flux
  flux.map (fun f =>
    powF ((f - mn) / (mx - mn)) enhancement_factor * (mx - mn) + mn)

structure Params where
  rebin_factor : ℤ
  sg_window : ℤ
  sg_poly : ℕ
  moving_avg_window : ℤ
  do_continuum_norm : Bool
  continuum_window : ℕ
  continuum_percentile : ℚ
  redshift_sigma_clip : ℚ

/-- Steps 4–6 of `main` on the rebinned triple `(wl_r, flux_r, ivar_r)`. -/
def processedReport (r : List ℚ × List ℚ × List ℚ) (params : Params)
    (lines_dict : List (String × ℚ))
    (sgPrimary : List ℚ → ℕ → ℕ → Option (List ℚ))
    (integ : List ℚ → List ℚ → ℚ) (powF : ℚ → ℚ → ℚ)
    (snrF : List ℚ → ℝ) (emisF : List ℚ → List ℚ → List EmissionLine) :
    Report :=
  let flux_r := r.2.1
  let current_sg_window : ℤ :=
    if params.sg_window > (flux_r.length : ℤ) then
      max 3 (if flux_r.length % 2 = 0 then (flux_r.length : ℤ) - 1
        else (flux_r.length : ℤ))
    else params.sg_window
  let flux_smooth := try_savgol flux_r current_sg_window params.sg_poly
    params.moving_avg_window sgPrimary
  let flux_enhanced := enhance_total flux_smooth (13/10) powF
  let flux_plot :=
    if params.do_continuum_norm then
      let cont := running_percentile flux_enhanced params.continuum_window
        params.continuum_percentile
      let cont2 := cont.map (fun c =>
        if c ≤ 0 then npMedian (cont.filter (fun x => decide (0 < x))) else c)
      List.zipWith (fun a b => a / b) flux_enhanced cont2
    else flux_enhanced
  generate_spectral_report r.1 flux_plot r.2.2 lines_dict
    params.redshift_sigma_clip integ snrF emisF

/-- The overall analysis of `main`: mask, rebin, the terminal empty check,
then the processing stages and the report. -/
def runPipeline (wl : List ℚ) (flux ivar : List EFloat) (params : Params)
    (lines_dict : List (String × ℚ))
    (sgPrimary : List ℚ → ℕ → ℕ → Option (List ℚ))
    (integ : List ℚ → List ℚ → ℚ) (powF : ℚ → ℚ → ℚ)
    (snrF : List ℚ → ℝ) (emisF : List ℚ → List ℚ → List EmissionLine) :
    Except AnalysisError Report :=
  let t := maskedTriple wl flux ivar
  let r := rebin_spectrum t.1 t.2.1 t.2.2 params.rebin_factor
  if r.2.1.length = 0 then Except.error AnalysisError.emptySpectrum
  else Except.ok
    (processedReport r params lines_dict sgPrimary integ powF snrF emisF)

theorem applyMask_length {α : Type} (xs : List α) (m : List Bool)
    (h : xs.length = m.length) :
    (applyMask xs m).length = m.countP (fun b => b) := by
  induction xs generalizing m with
  | nil =>
    cases m with
    | nil => rfl
    | cons b bs => simp at h
  | cons x xs ih =>
    cases m with
    | nil => simp at h
    | cons b bs =>
      have h2 : xs.length = bs.length := by simpa using h
      cases b with
      | false =>
        simp only [applyMask, List.zip_cons_cons, List.filter_cons,
          List.countP_cons] at ih ⊢
        simpa using ih bs h2
      | true =>
        simp only [applyMask, List.zip_cons_cons, List.filter_cons,
          List.countP_cons] at ih ⊢
        simpa using ih bs h2

theorem rebin_flux_length (wl flux ivar : List ℚ) (factor : ℤ)
    (h : flux.length = wl.length) :
    (rebin_spectrum wl flux ivar factor).2.1.length =
      if factor ≤ 1 then wl.length else wl.length / factor.toNat := by
  unfold rebin_spectrum
  by_cases hf : factor ≤ 1
  · rw [if_pos hf, if_pos hf]
    exact h
  · rw [if_neg hf, if_neg hf]
    simp

/-- C9: the analysis fails with the empty-spectrum error exactly when
masking-plus-rebinning leaves zero samples (`n / factor` full blocks of the
`n` mask-selected samples, or `n` itself when `factor ≤ 1`); a mask that
selects nothing always triggers it, and in every other case the pipeline
returns a report — the empty spectrum is its only fatal condition. -/
theorem pipeline_empty_spec (wl : List ℚ) (flux ivar : List EFloat)
    (params : Params) (lines_dict : List (String × ℚ))
    (sgPrimary : List ℚ → ℕ → ℕ → Option (List ℚ))
    (integ : List ℚ → List ℚ → ℚ) (powF : ℚ → ℚ → ℚ)
    (snrF : List ℚ → ℝ) (emisF : List ℚ → List ℚ → List EmissionLine)
    (hlf : flux.length = wl.length) (hli : ivar.length = wl.length) :
    (runPipeline wl flux ivar params lines_dict sgPrimary integ powF snrF
        emisF = Except.error AnalysisError.emptySpectrum ↔
      (if params.rebin_factor ≤ 1
        then (flux.zip ivar).countP
          (fun p => p.1.isSome && p.2.isSome && decide (0 < p.2.getD 0))
        else (flux.zip ivar).countP
          (fun p => p.1.isSome && p.2.isSome && decide (0 < p.2.getD 0)) /
          params.rebin_factor.toNat) = 0) ∧
    ((flux.zip ivar).countP
        (fun p => p.1.isSome && p.2.isSome && decide (0 < p.2.getD 0)) = 0 →
      runPipeline wl flux ivar params lines_dict sgPrimary integ powF snrF
        emisF = Except.error AnalysisError.emptySpectrum) ∧
    ((if params.rebin_factor ≤ 1
        then (flux.zip ivar).countP
          (fun p => p.1.isSome && p.2.isSome && decide (0 < p.2.getD 0))
        else (flux.zip ivar).countP
          (fun p => p.1.isSome && p.2.isSome && decide (0 < p.2.getD 0)) /
          params.rebin_factor.toNat) ≠ 0 →
      ∃ rep, runPipeline wl flux ivar params lines_dict sgPrimary integ powF
        snrF emisF = Except.ok rep) := by
  have hmlen : (valid_mask flux ivar).length = wl.length := by
    unfold valid_mask
    rw [List.length_map, List.length_zip]
    omega
  have hcount : (valid_mask flux ivar).countP (fun b => b) =
      (flux.zip ivar).countP
        (fun p => p.1.isSome && p.2.isSome && decide (0 < p.2.getD 0)) := by
    unfold valid_mask
    rw [List.countP_map]
    rfl
  have h1 : (maskedTriple wl flux ivar).1.length =
      (flux.zip ivar).countP
        (fun p => p.1.isSome && p.2.isSome && decide (0 < p.2.getD 0)) := by
    show (applyMask wl (valid_mask flux ivar)).length = _
    rw [applyMask_length _ _ hmlen.symm, hcount]
  have h2 : (maskedTriple wl flux ivar).2.1.length =
      (flux.zip ivar).countP
        (fun p => p.1.isSome && p.2.isSome && decide (0 < p.2.getD 0)) := by
    show ((applyMask flux (valid_mask flux ivar)).map _).length = _
    rw [List.length_map, applyMask_length _ _ (by omega), hcount]
  have hreb : (rebin_spectrum (maskedTriple wl flux ivar).1
      (maskedTriple wl flux ivar).2.1 (maskedTriple wl flux ivar).2.2
      params.rebin_factor).2.1.length =
      (if params.rebin_factor ≤ 1
        then (flux.zip ivar).countP
          (fun p => p.1.isSome && p.2.isSome && decide (0 < p.2.getD 0))
        else (flux.zip ivar).countP
          (fun p => p.1.isSome && p.2.isSome && decide (0 < p.2.getD 0)) /
          params.rebin_factor.toNat) := by
    rw [rebin_flux_length _ _ _ _ (by rw [h2, h1]), h1]
  refine ⟨?_, ?_, ?_⟩
  · unfold runPipeline
    simp only
    rw [hreb]
    by_cases hc : (if params.rebin_factor ≤ 1
        then (flux.zip ivar).countP
          (fun p => p.1.isSome && p.2.isSome && decide (0 < p.2.getD 0))
        else (flux.zip ivar).countP
          (fun p => p.1.isSome && p.2.isSome && decide (0 < p.2.getD 0)) /
          params.rebin_factor.toNat) = 0
    · rw [if_pos hc]
      simp [hc]
    · rw [if_neg hc]
      simp [hc]
  · intro h0
    unfold runPipeline
    simp only
    rw [hreb, if_pos (by rw [h0]; split <;> simp)]
  · intro hne
    refine ⟨processedReport (rebin_spectrum (maskedTriple wl flux ivar).1
      (maskedTriple wl flux ivar).2.1 (maskedTriple wl flux ivar).2.2
      params.rebin_factor) params lines_dict sgPrimary integ powF snrF
      emisF, ?_⟩
    unfold runPipeline
    simp only
    rw [hreb, if_neg hne]

/-- Witness for C9: one sample whose inverse variance is 0 is rejected by
the validity mask, so the analysis ends in the empty-spectrum error. -/
theorem pipeline_empty_spec_witness :
    (([some 1] : List EFloat).zip ([some 0] : List EFloat)).countP
      (fun p => p.1.isSome && p.2.isSome && decide (0 < p.2.getD 0)) = 0 ∧
    runPipeline [1] [some 1] [some 0] ⟨4, 61, 2, 35, true, 701, 90, 2⟩ []
      (fun _ _ _ => none) (fun _ _ => 0) (fun b _ => b) (fun _ => 0)
      (fun _ _ => []) = Except.error AnalysisError.emptySpectrum := by
  have h0 : (([some 1] : List EFloat).zip ([some 0] : List EFloat)).countP
      (fun p => p.1.isSome && p.2.isSome && decide (0 < p.2.getD 0)) = 0 := by
    simp [List.countP_cons]
  exact ⟨h0, (pipeline_empty_spec [1] [some 1] [some 0]
    ⟨4, 61, 2, 35, true, 701, 90, 2⟩ [] (fun _ _ _ => none) (fun _ _ => 0)
    (fun b _ => b) (fun _ => 0) (fun _ _ => []) rfl rfl).2.1 h0⟩

end SpectrumAnalyzer
